import Mathlib

/-!
Shallow embedding of the `eotwsink` log-collection service (`src/main.rs`):
an HTTP service with three handlers — `POST /upload` (multipart file upload
into `/opt/eotw_data/<date>/`), `GET /download` (zip archive of everything
under the storage root), and `GET /health`.  The filesystem is modelled as an
explicit state (`FS`), paths as lists of components, and the fallible
environment (current date, unix timestamps, `create_dir_all` and `fs::write`
outcomes) as an explicit `UploadEnv`.
-/

/-- Byte sequences (file contents, multipart payloads). -/
abbrev Bytes := List Nat

/-- JSON objects used by the handlers are flat string-to-string objects. -/
abbrev Json := List (String × String)

/-- `enum ApiError` from `src/main.rs`: `NotFound`, `BadRequest(String)`,
`InternalError(String)`. -/
inductive ApiError where
  | NotFound : ApiError
  | BadRequest : String → ApiError
  | InternalError : String → ApiError
deriving DecidableEq

/-- The HTTP status chosen by `ApiError::into_response`. -/
def errStatus : ApiError → Nat
  | .NotFound => 404
  | .BadRequest _ => 400
  | .InternalError _ => 500

/-- The human-readable message chosen by `ApiError::into_response`. -/
def errMessage : ApiError → String
  | .NotFound => "No resources could be found."
  | .BadRequest m => "There is something wrong with your request: " ++ m
  | .InternalError m => "Something went wrong. Probably not your fault: " ++ m

/-- The JSON body built by `ApiError::into_response`: `{"error": message}`. -/
def errBody (e : ApiError) : Json := [("error", errMessage e)]

/-- Body returned by `health_check`. -/
def healthBody : Json := [("status", "ok"), ("message", "Server is running :)")]

/-- Success body returned by `upload_log`. -/
def uploadSuccessBody : Json :=
  [("status", "success"), ("message", "File uploaded successfully")]

/-- One character of `file_name.replace(['/', '\\'], "_")`. -/
def sanitizeChar (c : Char) : Char := if c = '/' ∨ c = '\\' then '_' else c

/-- `file_name.replace(['/', '\\'], "_")` from `upload_log`. -/
def sanitize (s : String) : String := String.mk (s.data.map sanitizeChar)

/-- `format!("{}_{}", timestamp, file_name.replace(['/', '\\'], "_"))`. -/
def safeFileName (timestamp : Nat) (fileName : String) : String :=
  Nat.repr timestamp ++ "_" ++ sanitize fileName

/-- The storage root `/opt/eotw_data`, as path components. -/
def dataDir : List String := ["opt", "eotw_data"]

/-- Filesystem state: the set of existing directories and the regular files
with their contents, both keyed by component paths. -/
structure FS where
  dirs : List (List String)
  files : List (List String × Bytes)
deriving DecidableEq

/-- `fs::create_dir_all`: creates the directory and all its ancestors. -/
def FS.mkdirAll (fs : FS) (path : List String) : FS :=
  { fs with dirs := path.inits ++ fs.dirs }

/-- `fs::write`: creates the file, replacing any previous file at the path. -/
def FS.write (fs : FS) (path : List String) (data : Bytes) : FS :=
  { fs with files := (path, data) :: fs.files.filter (fun pb => decide (pb.1 ≠ path)) }

/-- `std::path::Path::exists`. -/
def FS.pathExists (fs : FS) (p : List String) : Bool :=
  decide (p ∈ fs.dirs) || fs.files.any (fun pb => decide (pb.1 = p))

/-- State after `main`'s bootstrap `fs::create_dir_all("/opt/eotw_data")`. -/
def initFS : FS := { dirs := dataDir.inits, files := [] }

/-- One multipart part as seen by `upload_log`: `field.name()`,
`field.file_name()`, and the result of `field.bytes().await`. -/
structure MPart where
  name : Option String
  fileName : Option String
  data : Except String Bytes

/-- Per-request environment: the local date (`%Y-%m-%d`), the unix timestamp
observed while handling each part, and the outcomes of the fallible
filesystem calls (`none` = success, `some e` = the OS error message). -/
structure UploadEnv where
  date : String
  timestamp : Nat → Nat
  dirCreateErr : Option String
  writeErr : List String → Option String

/-- The body of `upload_log`'s loop for one part: require a field name and a
file name, read the bytes, build the sanitized timestamped file name, and
write the file into the daily directory. -/
def processPart (env : UploadEnv) (idx : Nat) (dir : List String) (p : MPart)
    (fs : FS) : Except ApiError FS :=
  match p.name with
  | none => .error (.BadRequest "Field name is missing")
  | some _ =>
    match p.fileName with
    | none => .error (.BadRequest "File name is missing")
    | some fileName =>
      match p.data with
      | .error e => .error (.BadRequest ("Failed to read file data: " ++ e))
      | .ok data =>
        match env.writeErr (dir ++ [safeFileName (env.timestamp idx) fileName]) with
        | some e => .error (.InternalError ("Failed to save file: " ++ e))
        | none => .ok (fs.write (dir ++ [safeFileName (env.timestamp idx) fileName]) data)

/-- `upload_log`'s `while let Some(field) = multipart.next_field()` loop.
Each stream element is either a part or a `next_field` error; the loop stops
at the first failing element and returns the filesystem as it stands then,
together with the `file_saved` flag on normal completion. -/
def uploadLoop (env : UploadEnv) (dir : List String) :
    Nat → List (Except String MPart) → FS → Bool → (Except ApiError Bool) × FS
  | _, [], fs, saved => (.ok saved, fs)
  | _, .error e :: _, fs, _ =>
      (.error (.BadRequest ("Failed to read multipart field: " ++ e)), fs)
  | idx, .ok p :: rest, fs, _saved =>
      match processPart env idx dir p fs with
      | .error err => (.error err, fs)
      | .ok fs' => uploadLoop env dir (idx + 1) rest fs' true

/-- `upload_log`: create the daily directory, run the part loop, and demand
that at least one file was saved. -/
def uploadLog (env : UploadEnv) (parts : List (Except String MPart)) (fs : FS) :
    (Except ApiError Json) × FS :=
  match env.dirCreateErr with
  | some e => (.error (.InternalError ("Failed to create directory: " ++ e)), fs)
  | none =>
    let dir := dataDir ++ [env.date]
    let fs1 := fs.mkdirAll dir
    match uploadLoop env dir 0 parts fs1 false with
    | (.error err, fs') => (.error err, fs')
    | (.ok saved, fs') =>
        if saved then (.ok uploadSuccessBody, fs')
        else (.error (.BadRequest "No file was uploaded"), fs')

/-- A path strictly below the storage root (what `WalkDir::new(data_dir)`
visits and `strip_prefix(data_dir)` succeeds on with a nonempty remainder). -/
def underData (p : List String) : Bool :=
  decide (p.take dataDir.length = dataDir) && decide (dataDir.length < p.length)

/-- Zip entry name: the path relative to the root, joined with `/`. -/
def relName (p : List String) : String :=
  String.intercalate "/" (p.drop dataDir.length)

/-- The archive built by `download_log`: one entry per regular file under the
root, named by its root-relative path, containing the file's bytes. -/
def buildArchive (fs : FS) : List (String × Bytes) :=
  (fs.files.filter (fun pb => underData pb.1)).map (fun pb => (relName pb.1, pb.2))

/-- `download_log`: 404 when the storage root does not exist, otherwise the
complete archive. -/
def downloadLog (fs : FS) : Except ApiError (List (String × Bytes)) :=
  if fs.pathExists dataDir then .ok (buildArchive fs) else .error .NotFound

/-- Run a sequence of upload requests, threading the filesystem. -/
def runUploads (reqs : List (UploadEnv × List (Except String MPart))) (fs : FS) : FS :=
  reqs.foldl (fun s r => (uploadLog r.1 r.2 s).2) fs

/-- The service's operations on the shared filesystem. `download_log` and
`health_check` only read, so they leave the state unchanged. -/
inductive Op where
  | upload : UploadEnv → List (Except String MPart) → Op
  | download : Op
  | health : Op

/-- Effect of one request on the filesystem. -/
def step (fs : FS) : Op → FS
  | .upload env parts => (uploadLog env parts fs).2
  | .download => fs
  | .health => fs

/-- Process a list of parts, returning the filesystem if every part
succeeds (used to describe the successful prefix of a request). -/
def runParts (env : UploadEnv) (dir : List String) :
    Nat → List MPart → FS → Option FS
  | _, [], fs => some fs
  | idx, p :: rest, fs =>
      match processPart env idx dir p fs with
      | .error _ => none
      | .ok fs' => runParts env dir (idx + 1) rest fs'

/-- Spec-side restatement of sanitization: "the original name with every `/`
and every `\` character replaced by `_`". -/
def specReplaceSeps : List Char → List Char
  | [] => []
  | c :: cs =>
      (if c = '/' then '_' else if c = '\\' then '_' else c) :: specReplaceSeps cs

/-- Spec-side restatement of the stored file name: "the decimal digits of
`t`, then an underscore, then the original name with separators replaced". -/
def specStoredName (t : Nat) (name : String) : String :=
  Nat.repr t ++ "_" ++ String.mk (specReplaceSeps name.data)

/-- A character that is not a path separator. -/
def notSep (c : Char) : Bool := !(c = '/' || c = '\\')

/-- Does `pat` match at the head of `s`? -/
def leadMatch : List Char → List Char → Bool
  | [], _ => true
  | _ :: _, [] => false
  | p :: ps, c :: cs => p == c && leadMatch ps cs

/-- Does `pat` occur anywhere in `s`? -/
def subAt (pat : List Char) : List Char → Bool
  | [] => leadMatch pat []
  | c :: cs => leadMatch pat (c :: cs) || subAt pat cs

/-- Substring containment on strings. -/
def strHasSub (s pat : String) : Bool := subAt pat.data s.data

/-! ## Sanitization lemmas -/

theorem specReplaceSeps_eq_map (l : List Char) :
    specReplaceSeps l = l.map sanitizeChar := by
  induction l with
  | nil => rfl
  | cons c cs ih =>
    by_cases h1 : c = '/'
    · simp [specReplaceSeps, sanitizeChar, h1, ih]
    · by_cases h2 : c = '\\' <;> simp [specReplaceSeps, sanitizeChar, h1, h2, ih]

theorem notSep_sanitizeChar (c : Char) : notSep (sanitizeChar c) = true := by
  unfold sanitizeChar notSep
  split
  · decide
  · next h =>
    rw [not_or] at h
    simp [h.1, h.2]

theorem sanitizeChar_idem (c : Char) :
    sanitizeChar (sanitizeChar c) = sanitizeChar c := by
  unfold sanitizeChar
  split
  · decide
  · rfl

/-- Claim C2: for every original file name and unix timestamp `t`, the stored
file name computed by the upload handler is the decimal digits of `t`, an
underscore, and the original name with every `/` and `\` replaced by `_`; the
name component of the result contains no path separator character. -/
theorem safeFileName_spec (t : Nat) (name : String) :
    safeFileName t name = specStoredName t name
      ∧ (sanitize name).data.all notSep = true := by
  constructor
  · unfold safeFileName specStoredName sanitize
    rw [specReplaceSeps_eq_map]
  · rw [List.all_eq_true]
    intro c hc
    rcases List.mem_map.mp hc with ⟨c', _, rfl⟩
    exact notSep_sanitizeChar c'

/-- Claim C9: sanitization is idempotent — replacing separators in an
already-sanitized name changes nothing, because the output contains no
separator. -/
theorem sanitize_idem (s : String) : sanitize (sanitize s) = sanitize s := by
  unfold sanitize
  rw [List.map_map]
  have : sanitizeChar ∘ sanitizeChar = sanitizeChar := funext sanitizeChar_idem
  rw [this]

/-! ## Error mapping (C6) -/

/-- An `errStatus` of 404 forces the error to be `NotFound`. -/
theorem errStatus_404 (e : ApiError) (h : errStatus e = 404) : e = .NotFound := by
  cases e with
  | NotFound => rfl
  | BadRequest m => simp [errStatus] at h
  | InternalError m => simp [errStatus] at h

/-- Counterexample to claim C6 as stated: the `NotFound` kind does not carry
a free-form message appended to a prefix — no family of 404 errors indexed by
a message exists, because the only 404 error renders one fixed string. -/
theorem notFound_no_freeform :
    ¬ ∃ (p : String) (f : String → ApiError),
        ∀ s, errStatus (f s) = 404 ∧ errMessage (f s) = p ++ s := by
  rintro ⟨p, f, h⟩
  have h0 := h ""
  have h1 := h "a"
  rw [errStatus_404 _ h0.1] at h0
  rw [errStatus_404 _ h1.1] at h1
  have l0 := congrArg String.length h0.2
  have l1 := congrArg String.length h1.2
  rw [String.length_append] at l0 l1
  have e0 : ("" : String).length = 0 := rfl
  have e1 : ("a" : String).length = 1 := rfl
  have em : (errMessage .NotFound).length = 28 := rfl
  omega

/-- Claim C6 (amended): `NotFound` maps to 404 with the fixed message
"No resources could be found."; `BadRequest` and `InternalError` carry a
free-form message appended to their category prefixes and map to 400 and 500;
every error renders as the body `{"error": message}`. -/
theorem apiError_response_shape (m : String) :
    errStatus .NotFound = 404
      ∧ errStatus (.BadRequest m) = 400
      ∧ errStatus (.InternalError m) = 500
      ∧ errMessage .NotFound = "No resources could be found."
      ∧ errMessage (.BadRequest m)
          = "There is something wrong with your request: " ++ m
      ∧ errMessage (.InternalError m)
          = "Something went wrong. Probably not your fault: " ++ m
      ∧ ∀ e : ApiError, errBody e = [("error", errMessage e)] :=
  ⟨rfl, rfl, rfl, rfl, rfl, rfl, fun _ => rfl⟩

/-! ## Download handler (C5) -/

/-- Claim C5: when the storage root does not exist, `download_log` returns
`NotFound` and builds no archive. -/
theorem downloadLog_missing_root (fs : FS)
    (h : fs.pathExists dataDir = false) : downloadLog fs = .error .NotFound := by
  simp [downloadLog, h]

/-- Witness for C5 on the empty filesystem. -/
theorem downloadLog_missing_root_witness :
    downloadLog ⟨[], []⟩ = .error .NotFound :=
  downloadLog_missing_root ⟨[], []⟩ rfl

/-! ## Upload handler per-part requirements (C4) -/

/-- Claim C4: a part with no field name makes the handler fail with
`BadRequest "Field name is missing"`, and a part with a field name but no
file name makes it fail with `BadRequest "File name is missing"`; in both
cases the filesystem is returned unchanged, so no file is created for the
part. -/
theorem uploadLoop_missing_names (env : UploadEnv) (dir : List String)
    (idx : Nat) (p : MPart) (rest : List (Except String MPart)) (fs : FS)
    (saved : Bool) :
    (p.name = none →
      uploadLoop env dir idx (Except.ok p :: rest) fs saved
        = (.error (.BadRequest "Field name is missing"), fs))
    ∧ (∀ n, p.name = some n → p.fileName = none →
      uploadLoop env dir idx (Except.ok p :: rest) fs saved
        = (.error (.BadRequest "File name is missing"), fs)) := by
  constructor
  · intro h
    simp [uploadLoop, processPart, h]
  · intro n hn hf
    simp [uploadLoop, processPart, hn, hf]

/-- Witness for C4: one part without a field name, one part with a field
name but no file name. -/
theorem uploadLoop_missing_names_witness :
    uploadLoop ⟨"2026-10-12", fun _ => 7, none, fun _ => none⟩ (dataDir ++ ["2026-10-12"]) 0
        [Except.ok ⟨none, some "a.log", Except.ok []⟩] initFS false
      = (.error (.BadRequest "Field name is missing"), initFS)
    ∧ uploadLoop ⟨"2026-10-12", fun _ => 7, none, fun _ => none⟩ (dataDir ++ ["2026-10-12"]) 0
        [Except.ok ⟨some "f", none, Except.ok []⟩] initFS false
      = (.error (.BadRequest "File name is missing"), initFS) :=
  ⟨(uploadLoop_missing_names _ _ 0 ⟨none, some "a.log", Except.ok []⟩ [] initFS false).1 rfl,
   (uploadLoop_missing_names _ _ 0 ⟨some "f", none, Except.ok []⟩ [] initFS false).2 "f" rfl rfl⟩

/-! ## Zero parts saved (C3) -/

/-- Counterexample to claim C3 as stated: a request with one part that lacks
a field name saves zero parts, yet the handler's error is `BadRequest
"Field name is missing"`, whose rendered message does not contain
"No file was uploaded". -/
theorem uploadLog_zero_saved_other_message :
    (uploadLog ⟨"2026-10-12", fun _ => 7, none, fun _ => none⟩
        [Except.ok ⟨none, some "a.log", Except.ok []⟩] initFS).1
      = .error (.BadRequest "Field name is missing")
    ∧ ((uploadLog ⟨"2026-10-12", fun _ => 7, none, fun _ => none⟩
        [Except.ok ⟨none, some "a.log", Except.ok []⟩] initFS).2).files = []
    ∧ strHasSub (errMessage (.BadRequest "Field name is missing"))
        "No file was uploaded" = false :=
  ⟨rfl, rfl, by decide⟩

/-- Claim C3 (amended): a request whose multipart body contains zero parts
(and whose daily-directory creation succeeds) fails with `BadRequest`, whose
rendered message contains "No file was uploaded"; the filesystem keeps only
the newly created daily directory. -/
theorem uploadLog_empty_body (env : UploadEnv) (fs : FS)
    (h : env.dirCreateErr = none) :
    uploadLog env [] fs
      = (.error (.BadRequest "No file was uploaded"),
         fs.mkdirAll (dataDir ++ [env.date]))
    ∧ errStatus (.BadRequest "No file was uploaded") = 400
    ∧ strHasSub (errMessage (.BadRequest "No file was uploaded"))
        "No file was uploaded" = true := by
  refine ⟨?_, rfl, by decide⟩
  simp [uploadLog, h, uploadLoop]

/-- Witness for C3 (amended) on a concrete empty request. -/
theorem uploadLog_empty_body_witness :
    uploadLog ⟨"2026-10-12", fun _ => 7, none, fun _ => none⟩ [] initFS
      = (.error (.BadRequest "No file was uploaded"),
         initFS.mkdirAll (dataDir ++ ["2026-10-12"]))
    ∧ errStatus (.BadRequest "No file was uploaded") = 400
    ∧ strHasSub (errMessage (.BadRequest "No file was uploaded"))
        "No file was uploaded" = true :=
  uploadLog_empty_body ⟨"2026-10-12", fun _ => 7, none, fun _ => none⟩ initFS rfl

/-! ## Empty payloads (C10) -/

/-- Claim C10: a part with a field name, a file name, and an empty payload is
accepted — a zero-byte file is written, the part counts as saved, and the
request returns the 200 success body. -/
theorem uploadLog_empty_payload (env : UploadEnv) (fs : FS) (n fn : String)
    (h1 : env.dirCreateErr = none)
    (h2 : env.writeErr
        ((dataDir ++ [env.date]) ++ [safeFileName (env.timestamp 0) fn]) = none) :
    uploadLog env [Except.ok ⟨some n, some fn, Except.ok []⟩] fs
      = (.ok uploadSuccessBody,
         (fs.mkdirAll (dataDir ++ [env.date])).write
           ((dataDir ++ [env.date]) ++ [safeFileName (env.timestamp 0) fn]) [])
    ∧ (((dataDir ++ [env.date]) ++ [safeFileName (env.timestamp 0) fn]), ([] : Bytes))
        ∈ ((uploadLog env [Except.ok ⟨some n, some fn, Except.ok []⟩] fs).2).files := by
  have e : uploadLog env [Except.ok ⟨some n, some fn, Except.ok []⟩] fs
      = (.ok uploadSuccessBody,
         (fs.mkdirAll (dataDir ++ [env.date])).write
           ((dataDir ++ [env.date]) ++ [safeFileName (env.timestamp 0) fn]) []) := by
    simp only [uploadLog, h1, uploadLoop, processPart, h2, if_true]
  refine ⟨e, ?_⟩
  rw [e]
  simp [FS.write]

/-- Witness for C10 on a concrete request. -/
theorem uploadLog_empty_payload_witness :
    uploadLog ⟨"2026-10-12", fun _ => 7, none, fun _ => none⟩
        [Except.ok ⟨some "f", some "a.log", Except.ok []⟩] initFS
      = (.ok uploadSuccessBody,
         (initFS.mkdirAll (dataDir ++ ["2026-10-12"])).write
           ((dataDir ++ ["2026-10-12"]) ++ [safeFileName 7 "a.log"]) [])
    ∧ (((dataDir ++ ["2026-10-12"]) ++ [safeFileName 7 "a.log"]), ([] : Bytes))
        ∈ ((uploadLog ⟨"2026-10-12", fun _ => 7, none, fun _ => none⟩
            [Except.ok ⟨some "f", some "a.log", Except.ok []⟩] initFS).2).files :=
  uploadLog_empty_payload ⟨"2026-10-12", fun _ => 7, none, fun _ => none⟩ initFS
    "f" "a.log" rfl rfl

/-! ## Loop and handler structure lemmas -/

/-- Inversion: a successful `processPart` is exactly a write of the part's
bytes at the daily directory extended with the sanitized file name. -/
theorem processPart_ok_inv (env : UploadEnv) (idx : Nat) (dir : List String)
    (p : MPart) (fs fs' : FS) (h : processPart env idx dir p fs = .ok fs') :
    ∃ fn d, p.fileName = some fn ∧ p.data = .ok d ∧
      env.writeErr (dir ++ [safeFileName (env.timestamp idx) fn]) = none ∧
      fs' = fs.write (dir ++ [safeFileName (env.timestamp idx) fn]) d := by
  rcases p with ⟨nm, fn, dt⟩
  cases nm with
  | none => simp [processPart] at h
  | some n =>
    cases fn with
    | none => simp [processPart] at h
    | some f =>
      cases dt with
      | error e => simp [processPart] at h
      | ok d =>
        cases hw : env.writeErr (dir ++ [safeFileName (env.timestamp idx) f]) with
        | some e => simp [processPart, hw] at h
        | none =>
          simp only [processPart, hw] at h
          exact ⟨f, d, rfl, rfl, hw, by injection h with h'; exact h'.symm⟩

/-- The upload loop never touches directories. -/
theorem uploadLoop_dirs (env : UploadEnv) (dir : List String) :
    ∀ (parts : List (Except String MPart)) (idx : Nat) (fs : FS) (saved : Bool),
      ((uploadLoop env dir idx parts fs saved).2).dirs = fs.dirs := by
  intro parts
  induction parts with
  | nil => intro idx fs saved; rfl
  | cons x rest ih =>
    intro idx fs saved
    cases x with
    | error e => rfl
    | ok p =>
      cases hp : processPart env idx dir p fs with
      | error err => simp [uploadLoop, hp]
      | ok fs' =>
        rcases processPart_ok_inv env idx dir p fs fs' hp with ⟨fn, d, _, _, _, rfl⟩
        simp only [uploadLoop, hp]
        rw [ih]
        rfl

/-! ## Daily directory creation (C7) -/

/-- Counterexample to claim C7 as stated: an upload request with zero parts
creates the daily subdirectory even though it stores no file on that date
(the request itself fails with "No file was uploaded"). -/
theorem dailyDir_without_stored_file :
    (dataDir ++ ["2026-10-12"])
        ∈ (step initFS (.upload ⟨"2026-10-12", fun _ => 7, none, fun _ => none⟩ [])).dirs
    ∧ (step initFS (.upload ⟨"2026-10-12", fun _ => 7, none, fun _ => none⟩ [])).files = []
    ∧ (uploadLog ⟨"2026-10-12", fun _ => 7, none, fun _ => none⟩ [] initFS).1
        = .error (.BadRequest "No file was uploaded") :=
  ⟨by decide, rfl, rfl⟩

/-- Claim C7 (amended): the daily subdirectory for the request's date is
created by every upload request whose directory creation succeeds — even one
that stores nothing — while download and health requests never change the
filesystem. -/
theorem dailyDir_created_by_upload (env : UploadEnv)
    (parts : List (Except String MPart)) (fs : FS)
    (h : env.dirCreateErr = none) :
    (dataDir ++ [env.date]) ∈ ((uploadLog env parts fs).2).dirs
    ∧ step fs .download = fs ∧ step fs .health = fs := by
  refine ⟨?_, rfl, rfl⟩
  have hdirs : ((uploadLog env parts fs).2).dirs
      = (dataDir ++ [env.date]).inits ++ fs.dirs := by
    rcases hu : uploadLoop env (dataDir ++ [env.date]) 0 parts
        (fs.mkdirAll (dataDir ++ [env.date])) false with ⟨r, fs'⟩
    have h2 := uploadLoop_dirs env (dataDir ++ [env.date]) parts 0
        (fs.mkdirAll (dataDir ++ [env.date])) false
    rw [hu] at h2
    cases r with
    | error err =>
      simp only [uploadLog, h, hu]
      exact h2
    | ok saved =>
      cases saved <;> simp only [uploadLog, h, hu, if_true, if_false] <;> exact h2
  rw [hdirs]
  exact List.mem_append_left _ ((List.mem_inits _ _).mpr (List.prefix_refl _))

/-- Witness for C7 (amended) on a concrete zero-part upload request. -/
theorem dailyDir_created_by_upload_witness :
    (dataDir ++ ["2026-10-12"])
        ∈ ((uploadLog ⟨"2026-10-12", fun _ => 7, none, fun _ => none⟩ [] initFS).2).dirs
    ∧ step initFS .download = initFS ∧ step initFS .health = initFS :=
  dailyDir_created_by_upload ⟨"2026-10-12", fun _ => 7, none, fun _ => none⟩ [] initFS rfl

/-! ## Abort-on-error and frame behaviour (C8) -/

/-- Claim C8: if the successful parts `ps` of a request bring the filesystem
to `fs₁` and the next part `p` fails, the loop returns `p`'s error with the
filesystem exactly `fs₁` — no later part `qs` is processed and every file
written for the earlier parts is still present, unchanged. -/
theorem uploadLoop_abort_frame (env : UploadEnv) (dir : List String)
    (ps : List MPart) :
    ∀ (idx : Nat) (p : MPart) (qs : List (Except String MPart)) (fs fs₁ : FS)
      (e : ApiError) (saved : Bool),
      runParts env dir idx ps fs = some fs₁ →
      processPart env (idx + ps.length) dir p fs₁ = .error e →
      uploadLoop env dir idx (ps.map Except.ok ++ (Except.ok p :: qs)) fs saved
        = (.error e, fs₁) := by
  induction ps with
  | nil =>
    intro idx p qs fs fs₁ e saved h1 h2
    simp only [runParts, Option.some.injEq] at h1
    subst h1
    simp only [List.length_nil, Nat.add_zero] at h2
    simp [uploadLoop, h2]
  | cons a as ih =>
    intro idx p qs fs fs₁ e saved h1 h2
    rw [runParts] at h1
    cases hp : processPart env idx dir a fs with
    | error err => rw [hp] at h1; simp at h1
    | ok fs' =>
      rw [hp] at h1
      simp only [List.map_cons, List.cons_append]
      rw [uploadLoop, hp]
      apply ih (idx + 1) p qs fs' fs₁ e true h1
      have harith : idx + 1 + as.length = idx + (a :: as).length := by
        simp [List.length_cons]
        omega
      rw [harith]
      exact h2

/-- Witness for C8: a good part, then a part with no file name, then a
further part that is never reached. -/
theorem uploadLoop_abort_frame_witness :
    uploadLoop ⟨"2026-10-12", fun _ => 7, none, fun _ => none⟩
        (dataDir ++ ["2026-10-12"]) 0
        ([⟨some "f", some "a", Except.ok [1]⟩].map Except.ok
          ++ (Except.ok ⟨some "g", none, Except.ok []⟩
              :: [Except.ok ⟨some "h", some "b", Except.ok [2]⟩])) initFS false
      = (.error (.BadRequest "File name is missing"),
         initFS.write ((dataDir ++ ["2026-10-12"]) ++ [safeFileName 7 "a"]) [1]) :=
  uploadLoop_abort_frame ⟨"2026-10-12", fun _ => 7, none, fun _ => none⟩
    (dataDir ++ ["2026-10-12"]) [⟨some "f", some "a", Except.ok [1]⟩] 0
    ⟨some "g", none, Except.ok []⟩ [Except.ok ⟨some "h", some "b", Except.ok [2]⟩]
    initFS (initFS.write ((dataDir ++ ["2026-10-12"]) ++ [safeFileName 7 "a"]) [1])
    (.BadRequest "File name is missing") false rfl rfl

/-! ## Reachable-state invariant and the round trip (C1) -/

/-- Every file the upload handler writes lies strictly under the root. -/
theorem underData_daily (d s : String) :
    underData ((dataDir ++ [d]) ++ [s]) = true := rfl

/-- The upload loop writes files only under the storage root. -/
theorem uploadLoop_files_under (env : UploadEnv) (d : String) :
    ∀ (parts : List (Except String MPart)) (idx : Nat) (fs : FS) (saved : Bool),
      (∀ pb ∈ fs.files, underData pb.1 = true) →
      ∀ pb ∈ ((uploadLoop env (dataDir ++ [d]) idx parts fs saved).2).files,
        underData pb.1 = true := by
  intro parts
  induction parts with
  | nil => intro idx fs saved h; exact h
  | cons x rest ih =>
    intro idx fs saved h
    cases x with
    | error e => exact h
    | ok p =>
      cases hp : processPart env idx (dataDir ++ [d]) p fs with
      | error err => simpa [uploadLoop, hp] using h
      | ok fs' =>
        rcases processPart_ok_inv env idx _ p fs fs' hp with ⟨fn, dd, _, _, _, rfl⟩
        simp only [uploadLoop, hp]
        apply ih (idx + 1) _ true
        intro pb hpb
        simp only [FS.write, List.mem_cons] at hpb
        rcases hpb with rfl | hpb
        · exact underData_daily d (safeFileName (env.timestamp idx) fn)
        · exact h pb (List.mem_filter.mp hpb).1

/-- Invariant of all reachable filesystem states: the storage root exists as
a directory, and every file lies strictly under it. -/
def goodFS (fs : FS) : Prop :=
  dataDir ∈ fs.dirs ∧ ∀ pb ∈ fs.files, underData pb.1 = true

/-- The invariant holds after the process bootstrap. -/
theorem initFS_good : goodFS initFS :=
  ⟨by decide, fun pb h => absurd h (List.not_mem_nil pb)⟩

/-- One upload request preserves the invariant. -/
theorem uploadLog_good (env : UploadEnv) (parts : List (Except String MPart))
    (fs : FS) (h : goodFS fs) : goodFS (uploadLog env parts fs).2 := by
  cases hc : env.dirCreateErr with
  | some e => simpa [uploadLog, hc] using h
  | none =>
    rcases hu : uploadLoop env (dataDir ++ [env.date]) 0 parts
        (fs.mkdirAll (dataDir ++ [env.date])) false with ⟨r, fs'⟩
    have hdirs := uploadLoop_dirs env (dataDir ++ [env.date]) parts 0
        (fs.mkdirAll (dataDir ++ [env.date])) false
    rw [hu] at hdirs
    have hfiles := uploadLoop_files_under env env.date parts 0
        (fs.mkdirAll (dataDir ++ [env.date])) false h.2
    rw [hu] at hfiles
    have hres : (uploadLog env parts fs).2 = fs' := by
      cases r with
      | error err => simp [uploadLog, hc, hu]
      | ok saved => cases saved <;> simp [uploadLog, hc, hu]
    rw [hres]
    refine ⟨?_, hfiles⟩
    rw [hdirs]
    simp only [FS.mkdirAll]
    exact List.mem_append_right _ h.1

/-- Any sequence of upload requests preserves the invariant. -/
theorem runUploads_good (reqs : List (UploadEnv × List (Except String MPart))) :
    ∀ fs : FS, goodFS fs → goodFS (runUploads reqs fs) := by
  induction reqs with
  | nil => intro fs h; exact h
  | cons r rs ih => intro fs h; exact ih _ (uploadLog_good r.1 r.2 fs h)

/-- On an invariant-satisfying state, the download handler succeeds and the
archive lists every stored file once, entry name the root-relative path,
entry content the stored bytes. -/
theorem downloadLog_of_good (fs : FS) (h : goodFS fs) :
    downloadLog fs = .ok (fs.files.map fun pb => (relName pb.1, pb.2)) := by
  have hex : fs.pathExists dataDir = true := by
    unfold FS.pathExists
    simp [h.1]
  simp [downloadLog, hex, buildArchive, List.filter_eq_self.mpr h.2]

/-- Claim C1: after any sequence of upload requests from the bootstrap state,
a download succeeds and returns exactly one archive entry per stored file,
named by the file's root-relative path (forward-slash separators) and holding
the file's bytes; a successfully processed part stores exactly the uploaded
bytes at the daily directory extended with the sanitized name, whose
root-relative entry name is `<date>/<safe-name>`. -/
theorem upload_download_roundtrip
    (reqs : List (UploadEnv × List (Except String MPart)))
    (env : UploadEnv) (idx : Nat) (fs : FS) (n fn : String) (d : Bytes) :
    downloadLog (runUploads reqs initFS)
      = .ok ((runUploads reqs initFS).files.map fun pb => (relName pb.1, pb.2))
    ∧ (env.writeErr ((dataDir ++ [env.date])
          ++ [safeFileName (env.timestamp idx) fn]) = none →
       processPart env idx (dataDir ++ [env.date]) ⟨some n, some fn, Except.ok d⟩ fs
         = .ok (fs.write ((dataDir ++ [env.date])
             ++ [safeFileName (env.timestamp idx) fn]) d))
    ∧ relName ((dataDir ++ [env.date]) ++ [safeFileName (env.timestamp idx) fn])
        = env.date ++ "/" ++ safeFileName (env.timestamp idx) fn := by
  refine ⟨downloadLog_of_good _ (runUploads_good reqs initFS initFS_good), ?_, rfl⟩
  intro hw
  simp only [processPart, hw]

/-- Witness for C1: one upload of bytes `[104, 105]` under name `a.log`
followed by a download. -/
theorem upload_download_roundtrip_witness :
    downloadLog (runUploads [(⟨"2026-10-12", fun _ => 7, none, fun _ => none⟩,
        [Except.ok ⟨some "f", some "a.log", Except.ok [104, 105]⟩])] initFS)
      = .ok ((runUploads [(⟨"2026-10-12", fun _ => 7, none, fun _ => none⟩,
          [Except.ok ⟨some "f", some "a.log", Except.ok [104, 105]⟩])] initFS).files.map
            fun pb => (relName pb.1, pb.2))
    ∧ processPart ⟨"2026-10-12", fun _ => 7, none, fun _ => none⟩ 0
        (dataDir ++ ["2026-10-12"]) ⟨some "f", some "a.log", Except.ok [104, 105]⟩ initFS
        = .ok (initFS.write
            ((dataDir ++ ["2026-10-12"]) ++ [safeFileName 7 "a.log"]) [104, 105])
    ∧ relName ((dataDir ++ ["2026-10-12"]) ++ [safeFileName 7 "a.log"])
        = "2026-10-12" ++ "/" ++ safeFileName 7 "a.log" := by
  have h := upload_download_roundtrip
    [(⟨"2026-10-12", fun _ => 7, none, fun _ => none⟩,
        [Except.ok ⟨some "f", some "a.log", Except.ok [104, 105]⟩])]
    ⟨"2026-10-12", fun _ => 7, none, fun _ => none⟩ 0 initFS "f" "a.log" [104, 105]
  exact ⟨h.1, h.2.1 rfl, h.2.2⟩
